import Mathlib

/-!
Verification of the snake-game core logic (two near-identical variants:
`src/components/GameCanvas.tsx`, grid 30×20, and the unnamed dashboard
variant, grid 40×25). The definitions below are a shallow embedding of the
TypeScript source: grid geometry, food spawning, the per-tick move/collision
step (`loop`), direction buffering (`handleDirectionChange`) and the
game-over high-score update (`gameOver`). Coordinates are integers; the
`Math.random()` draws in `[0,1)` are modelled as rationals.
-/

/-- Grid cell coordinate, as in `type Point = { x: number; y: number }`. -/
structure Point where
  x : Int
  y : Int
  deriving DecidableEq, Repr

instance : Inhabited Point := ⟨⟨0, 0⟩⟩

/-- Food kinds, as in `type FoodType = 'NORMAL' | 'GHOST' | 'WRAP'`. -/
inductive FoodType where
  | NORMAL
  | GHOST
  | WRAP
  deriving DecidableEq, Repr

/-- Active power-up kinds; the source's `PowerUpType` is this or `null`,
modelled as `Option PowerUpKind`. -/
inductive PowerUpKind where
  | GHOST
  | WRAP
  deriving DecidableEq, Repr

/-- The food record `{ x, y, type }` held in `foodRef`. -/
structure Food where
  x : Int
  y : Int
  type : FoodType
  deriving DecidableEq, Repr

/-- Position cell of a food record. -/
def foodPos (f : Food) : Point := ⟨f.x, f.y⟩

/-- Configuration separating the two variants: `GRID_WIDTH`, `GRID_HEIGHT`
and the fixed initial snake set by `resetGame`. -/
structure Cfg where
  width : Int
  height : Int
  initSnake : List Point
  deriving DecidableEq, Repr

/-- The `GameCanvas.tsx` variant: `GRID_WIDTH = 30`, `GRID_HEIGHT = 20`,
initial snake `[{ x: 10, y: 10 }]`. -/
def neonCfg : Cfg := ⟨30, 20, [⟨10, 10⟩]⟩

/-- The unnamed dashboard variant: `GRID_WIDTH = 40`, `GRID_HEIGHT = 25`,
initial snake `[{5,10},{4,10},{3,10}]`. -/
def dashCfg : Cfg := ⟨40, 25, [⟨5, 10⟩, ⟨4, 10⟩, ⟨3, 10⟩]⟩

/-- One triple of `Math.random()` draws consumed by `spawnFood`: the kind
draw, then the x draw, then the y draw. -/
structure Rands where
  kind : ℚ
  x : ℚ
  y : ℚ
  deriving DecidableEq, Repr

/-- Each `Math.random()` draw lies in `[0, 1)`. -/
def validRands (r : Rands) : Prop :=
  (0 ≤ r.kind ∧ r.kind < 1) ∧ (0 ≤ r.x ∧ r.x < 1) ∧ (0 ≤ r.y ∧ r.y < 1)

instance (r : Rands) : Decidable (validRands r) := by
  unfold validRands; infer_instance

/-- Embedding of `spawnFood`: the kind draw partitions `[0,1)` at 0.85 and
0.70 (`rand > 0.85` ⇒ GHOST, else `rand > 0.70` ⇒ WRAP, else NORMAL); the
position is `(floor(rand*GRID_WIDTH), floor(rand*GRID_HEIGHT))`. -/
def spawnFood (cfg : Cfg) (r : Rands) : Food :=
  let type : FoodType :=
    if 17/20 < r.kind then .GHOST
    else if 7/10 < r.kind then .WRAP
    else .NORMAL
  { x := ⌊r.x * (cfg.width : ℚ)⌋, y := ⌊r.y * (cfg.height : ℚ)⌋, type := type }

/-- In-bounds predicate for a grid cell; the source tests the negation
`x < 0 || x >= GRID_WIDTH || y < 0 || y >= GRID_HEIGHT`. -/
def inBounds (cfg : Cfg) (p : Point) : Prop :=
  0 ≤ p.x ∧ p.x < cfg.width ∧ 0 ≤ p.y ∧ p.y < cfg.height

instance (cfg : Cfg) (p : Point) : Decidable (inBounds cfg p) := by
  unfold inBounds; infer_instance

/-- Embedding of the WRAP adjustment in the loop body: each coordinate is
pushed to the opposite edge when it has left the grid (`if (x < 0) x =
GRID_WIDTH - 1; if (x >= GRID_WIDTH) x = 0;`, same for `y`). -/
def wrap (cfg : Cfg) (p : Point) : Point :=
  let x1 := if p.x < 0 then cfg.width - 1 else p.x
  let x2 := if cfg.width ≤ x1 then 0 else x1
  let y1 := if p.y < 0 then cfg.height - 1 else p.y
  let y2 := if cfg.height ≤ y1 then 0 else y1
  ⟨x2, y2⟩

/-- Engine state mutated by the loop: `snakeRef`, `directionRef`,
`nextDirectionRef` and `foodRef`. -/
structure EngineState where
  snake : List Point
  direction : Point
  nextDirection : Point
  food : Food
  deriving DecidableEq, Repr

/-- Which collision branch called `gameOver` in the loop body. -/
inductive DeathCause where
  | wall
  | self
  deriving DecidableEq, Repr

/-- Outcome of one move update of the loop. -/
inductive StepResult where
  | Moved (grew : Bool)
  | Died (cause : DeathCause)
  deriving DecidableEq, Repr

/-- Candidate head of a tick: current head plus the committed direction
(`nextDirectionRef`), wrapped when the WRAP power-up is active. -/
def newHeadOf (cfg : Cfg) (pu : Option PowerUpKind) (st : EngineState) : Point :=
  let dir := st.nextDirection
  let head := st.snake.headI
  let nh : Point := ⟨head.x + dir.x, head.y + dir.y⟩
  if pu = some .WRAP then wrap cfg nh else nh

/-- Embedding of the move-update portion of `loop` (identical in both
variants): commit `directionRef = nextDirectionRef`, compute the new head,
run the wall check (skipped under WRAP, after wrapping), run the
self-collision scan over the whole pre-move body (skipped under GHOST),
then prepend the head, growing (and respawning food from `r`) when the new
head is on the food, else popping the tail. On either death branch the
snake and the food are left untouched. -/
def loop (cfg : Cfg) (pu : Option PowerUpKind) (st : EngineState) (r : Rands) :
    StepResult × EngineState :=
  let dir := st.nextDirection
  let nh := newHeadOf cfg pu st
  if pu ≠ some .WRAP ∧ ¬ inBounds cfg nh then
    (.Died .wall, { st with direction := dir })
  else if pu ≠ some .GHOST ∧ nh ∈ st.snake then
    (.Died .self, { st with direction := dir })
  else if nh = foodPos st.food then
    (.Moved true,
      { snake := nh :: st.snake, direction := dir, nextDirection := dir,
        food := spawnFood cfg r })
  else
    (.Moved false,
      { snake := (nh :: st.snake).dropLast, direction := dir, nextDirection := dir,
        food := st.food })

/-- Embedding of `handleDirectionChange`: a proposed direction sharing a
nonzero axis with the currently active direction is ignored; otherwise it
overwrites the pending-direction buffer. -/
def handleDirectionChange (currentDir pending newDir : Point) : Point :=
  if newDir.x ≠ 0 ∧ currentDir.x ≠ 0 then pending
  else if newDir.y ≠ 0 ∧ currentDir.y ≠ 0 then pending
  else newDir

/-- Boolean legality test matching `handleDirectionChange`: legal iff not a
same-axis conflict with the active direction. -/
def legalDir (currentDir newDir : Point) : Bool :=
  decide (¬ (newDir.x ≠ 0 ∧ currentDir.x ≠ 0) ∧ ¬ (newDir.y ≠ 0 ∧ currentDir.y ≠ 0))

/-- Folding a burst of direction commands arriving within one tick interval
through `handleDirectionChange` (the active direction is not re-read until
the next tick commits). -/
def processCommands (currentDir pending : Point) (cmds : List Point) : Point :=
  cmds.foldl (handleDirectionChange currentDir) pending

/-- Observable effects of the PLAYING → GAME_OVER transition. -/
structure GameOverEffect where
  highScore : Nat
  persisted : Bool
  celebrated : Bool
  deriving DecidableEq, Repr

/-- Embedding of `gameOver`: only when `score > highScore` does it set and
persist the new high score and fire the confetti celebration. -/
def gameOver (score highScore : Nat) : GameOverEffect :=
  if highScore < score then ⟨score, true, true⟩ else ⟨highScore, false, false⟩

/-- Embedding of `resetGame`'s engine-state part: fixed initial snake,
direction and pending direction `(1,0)`, fresh food from `spawnFood`. -/
def resetGame (cfg : Cfg) (r : Rands) : EngineState :=
  { snake := cfg.initSnake, direction := ⟨1, 0⟩, nextDirection := ⟨1, 0⟩,
    food := spawnFood cfg r }

/-- The four direction vectors ever passed to the direction-change handlers
(arrow keys, swipe gestures, mobile buttons). -/
def unitDirs : List Point := [⟨1, 0⟩, ⟨-1, 0⟩, ⟨0, 1⟩, ⟨0, -1⟩]

/-- Engine states reachable in a session: the reset state, followed by any
interleaving of direction commands (always drawn from `unitDirs`) and loop
ticks under any power-up reading. -/
inductive Reachable (cfg : Cfg) : EngineState → Prop where
  | init (r : Rands) : Reachable cfg (resetGame cfg r)
  | cmd (st : EngineState) (d : Point) : Reachable cfg st → d ∈ unitDirs →
      Reachable cfg { st with nextDirection := handleDirectionChange st.direction st.nextDirection d }
  | step (st : EngineState) (pu : Option PowerUpKind) (r : Rands) :
      Reachable cfg st → Reachable cfg (loop cfg pu st r).2

/-! Helper lemmas shared by the claim theorems below. -/

/-- A list's optional last element, when present, is a member of the list. -/
theorem mem_of_getLast?_eq (l : List Point) (a : Point) (h : l.getLast? = some a) :
    a ∈ l := by
  rcases l with _ | ⟨b, t⟩
  · simp at h
  · rw [List.getLast?_eq_getLast (b :: t) (by simp)] at h
    injection h with h
    rw [← h]
    exact List.getLast_mem _

/-- Characterization of integer `emod` on the near range `[-1, W]`, matching
the one-cell-overshoot adjustment done by `wrap`. -/
theorem emod_near (W a : Int) (hW : 0 < W) (h0 : -1 ≤ a) (h1 : a ≤ W) :
    a % W = if a < 0 then W - 1 else if W ≤ a then 0 else a := by
  split_ifs with hneg hge
  · have ha : a = -1 := by omega
    subst ha
    have h2 : (-1 : Int) % W = (-1 + W * 1) % W := (Int.add_mul_emod_self_left (-1) W 1).symm
    rw [h2]
    have h3 : (-1 + W * 1 : Int) = W - 1 := by ring
    rw [h3]
    exact Int.emod_eq_of_lt (by omega) (by omega)
  · have ha : a = W := by omega
    subst ha
    exact Int.emod_self
  · exact Int.emod_eq_of_lt (by omega) (by omega)

/-- For an in-bounds cell and a unit direction, the `wrap` adjustment agrees
with modular wraparound on both axes. -/
theorem wrap_eq_emod (cfg : Cfg) (p d : Point) (hd : d ∈ unitDirs)
    (hp : inBounds cfg p) :
    wrap cfg ⟨p.x + d.x, p.y + d.y⟩ =
      ⟨(p.x + d.x) % cfg.width, (p.y + d.y) % cfg.height⟩ := by
  obtain ⟨hx0, hx1, hy0, hy1⟩ := hp
  have hW : (0:Int) < cfg.width := by omega
  have hH : (0:Int) < cfg.height := by omega
  simp only [unitDirs, List.mem_cons, List.not_mem_nil, or_false] at hd
  simp only [wrap, Point.mk.injEq]
  rcases hd with h | h | h | h <;> subst h <;> simp <;> constructor <;>
    rw [emod_near _ _ (by omega) (by omega) (by omega)] <;> split_ifs <;> omega

/-- Every branch of the loop body commits `directionRef = nextDirectionRef`
and leaves the pending buffer holding that same direction. -/
theorem loop_commits_direction (cfg : Cfg) (pu : Option PowerUpKind)
    (st : EngineState) (r : Rands) :
    ((loop cfg pu st r).2).direction = st.nextDirection ∧
    ((loop cfg pu st r).2).nextDirection = st.nextDirection := by
  simp only [loop]
  split_ifs <;> simp

/-- A direction command either leaves the pending buffer alone (illegal) or
replaces it (legal). -/
theorem handleDirectionChange_eq (cur pend d : Point) :
    handleDirectionChange cur pend d = if legalDir cur d then d else pend := by
  unfold handleDirectionChange legalDir
  split_ifs <;> simp_all

/-- Folding a burst of commands leaves the last legal one in the buffer
(or the original pending direction when none is legal). -/
theorem processCommands_eq (cur pend : Point) (cmds : List Point) :
    processCommands cur pend cmds = (cmds.reverse.find? (legalDir cur)).getD pend := by
  induction cmds generalizing pend with
  | nil => simp [processCommands]
  | cons c cs ih =>
    have hstep : processCommands cur pend (c :: cs)
        = processCommands cur (handleDirectionChange cur pend c) cs := rfl
    rw [hstep, ih, List.reverse_cons, List.find?_append]
    cases hfind : cs.reverse.find? (legalDir cur) with
    | some x => simp [hfind]
    | none =>
      simp only [hfind, Option.none_or]
      rw [handleDirectionChange_eq]
      by_cases hc : legalDir cur c = true <;> simp [hc, List.find?]

/-- Both direction refs of every reachable engine state hold one of the four
unit vectors. -/
theorem dir_invariant (cfg : Cfg) (st : EngineState) (h : Reachable cfg st) :
    st.direction ∈ unitDirs ∧ st.nextDirection ∈ unitDirs := by
  induction h with
  | init r => exact ⟨by simp [resetGame, unitDirs], by simp [resetGame, unitDirs]⟩
  | cmd st d hst hd ih =>
    refine ⟨ih.1, ?_⟩
    show handleDirectionChange st.direction st.nextDirection d ∈ unitDirs
    unfold handleDirectionChange
    split_ifs
    · exact ih.2
    · exact ih.2
    · exact hd
  | step st pu r hst ih =>
    have hc := loop_commits_direction cfg pu st r
    rw [hc.1, hc.2]
    exact ⟨ih.2, ih.2⟩

/-- On a grid at least 2 cells wide and tall, the candidate head built from
an in-bounds cell and a unit direction differs from that cell, wrapped or
not. -/
theorem headCand_ne (cfg : Cfg) (pu : Option PowerUpKind) (p d : Point)
    (hd : d ∈ unitDirs) (hp : inBounds cfg p)
    (hW : 2 ≤ cfg.width) (hH : 2 ≤ cfg.height) :
    (if pu = some .WRAP then wrap cfg ⟨p.x + d.x, p.y + d.y⟩
     else (⟨p.x + d.x, p.y + d.y⟩ : Point)) ≠ p := by
  obtain ⟨px, py⟩ := p
  obtain ⟨hx0, hx1, hy0, hy1⟩ := hp
  simp only [unitDirs, List.mem_cons, List.not_mem_nil, or_false] at hd
  split_ifs with hpu
  · simp only [wrap]
    rcases hd with h | h | h | h <;> subst h <;>
      simp only [ne_eq, Point.mk.injEq, not_and] <;> intro hx hy <;>
      revert hx <;> split_ifs <;> omega
  · rcases hd with h | h | h | h <;> subst h <;>
      simp only [ne_eq, Point.mk.injEq, not_and] <;> intro hx hy <;> omega

/-! Claim theorems. -/

/-- C1: whenever the computed new head survives the wall check (in-bounds,
or the WRAP power-up is active) and the self-collision check (not on the
pre-move body, or the GHOST power-up is active), the loop returns `Moved`,
and the body length afterwards is the previous length, plus one exactly
when the new head sits on the pre-step food position. -/
theorem step_moved_length (cfg : Cfg) (pu : Option PowerUpKind) (st : EngineState)
    (r : Rands)
    (hwall : pu = some .WRAP ∨ inBounds cfg (newHeadOf cfg pu st))
    (hself : pu = some .GHOST ∨ newHeadOf cfg pu st ∉ st.snake) :
    (newHeadOf cfg pu st = foodPos st.food →
      (loop cfg pu st r).1 = .Moved true ∧
      ((loop cfg pu st r).2).snake.length = st.snake.length + 1) ∧
    (newHeadOf cfg pu st ≠ foodPos st.food →
      (loop cfg pu st r).1 = .Moved false ∧
      ((loop cfg pu st r).2).snake.length = st.snake.length) := by
  have h1 : ¬ (pu ≠ some .WRAP ∧ ¬ inBounds cfg (newHeadOf cfg pu st)) := by
    rcases hwall with h | h <;> simp [h]
  have h2 : ¬ (pu ≠ some .GHOST ∧ newHeadOf cfg pu st ∈ st.snake) := by
    rcases hself with h | h <;> simp [h]
  unfold loop
  simp only [h1, h2, if_neg, if_false]
  constructor
  · intro hf
    simp [hf]
  · intro hf
    simp [hf, List.length_dropLast]

/-- Witness for C1: the spec scenario — snake `[(10,10)]` heading right
onto food at `(11,10)` moves and grows to length 2. -/
theorem step_moved_length_witness :
    (loop neonCfg none ⟨[⟨10, 10⟩], ⟨1, 0⟩, ⟨1, 0⟩, ⟨11, 10, .NORMAL⟩⟩ ⟨0, 0, 0⟩).1
      = .Moved true ∧
    ((loop neonCfg none ⟨[⟨10, 10⟩], ⟨1, 0⟩, ⟨1, 0⟩, ⟨11, 10, .NORMAL⟩⟩ ⟨0, 0, 0⟩).2).snake.length
      = 2 :=
  (step_moved_length neonCfg none ⟨[⟨10, 10⟩], ⟨1, 0⟩, ⟨1, 0⟩, ⟨11, 10, .NORMAL⟩⟩ ⟨0, 0, 0⟩
    (Or.inr (by decide)) (Or.inr (by decide))).1 (by decide)

/-- C2: when the loop reports `Died` (either cause), the resulting state's
snake body and food are exactly the pre-step ones — the failing path
performs no body or food mutation. -/
theorem died_no_mutation (cfg : Cfg) (pu : Option PowerUpKind) (st : EngineState)
    (r : Rands) (c : DeathCause) (st2 : EngineState)
    (h : loop cfg pu st r = (.Died c, st2)) :
    st2.snake = st.snake ∧ st2.food = st.food := by
  simp only [loop] at h
  split_ifs at h with h1 h2 h3
  · injection h with ha hb
    subst hb
    exact ⟨rfl, rfl⟩
  · injection h with ha hb
    subst hb
    exact ⟨rfl, rfl⟩
  · injection h with ha hb
    exact StepResult.noConfusion ha
  · injection h with ha hb
    exact StepResult.noConfusion ha

/-- Witness for C2: the spec scenario — snake `[(0,10),(1,10)]` heading
left without WRAP dies at the wall with body and food untouched. -/
theorem died_no_mutation_witness :
    ((loop neonCfg none ⟨[⟨0, 10⟩, ⟨1, 10⟩], ⟨-1, 0⟩, ⟨-1, 0⟩, ⟨15, 10, .NORMAL⟩⟩ ⟨0, 0, 0⟩).2).snake
      = [⟨0, 10⟩, ⟨1, 10⟩] ∧
    ((loop neonCfg none ⟨[⟨0, 10⟩, ⟨1, 10⟩], ⟨-1, 0⟩, ⟨-1, 0⟩, ⟨15, 10, .NORMAL⟩⟩ ⟨0, 0, 0⟩).2).food
      = ⟨15, 10, .NORMAL⟩ :=
  died_no_mutation neonCfg none ⟨[⟨0, 10⟩, ⟨1, 10⟩], ⟨-1, 0⟩, ⟨-1, 0⟩, ⟨15, 10, .NORMAL⟩⟩
    ⟨0, 0, 0⟩ .wall
    ((loop neonCfg none ⟨[⟨0, 10⟩, ⟨1, 10⟩], ⟨-1, 0⟩, ⟨-1, 0⟩, ⟨15, 10, .NORMAL⟩⟩ ⟨0, 0, 0⟩).2)
    (by decide)

/-- C3: with the WRAP power-up active, from an in-bounds head and a unit
direction the candidate head is the modular wraparound of `head + dir` on
both axes (so it re-enters on the opposite edge at the same orthogonal
coordinate, inside `[0,width) × [0,height)`), and such a step never returns
`Died` from the wall branch. -/
theorem wrap_powerup_step (cfg : Cfg) (st : EngineState)
    (hd : st.nextDirection ∈ unitDirs)
    (hh : inBounds cfg st.snake.headI) :
    newHeadOf cfg (some .WRAP) st =
      ⟨(st.snake.headI.x + st.nextDirection.x) % cfg.width,
       (st.snake.headI.y + st.nextDirection.y) % cfg.height⟩ ∧
    ∀ r : Rands, (loop cfg (some .WRAP) st r).1 ≠ .Died .wall := by
  constructor
  · simp only [newHeadOf, if_pos rfl]
    exact wrap_eq_emod cfg st.snake.headI st.nextDirection hd hh
  · intro r
    simp only [loop]
    split_ifs with h1 h2 h3 <;> simp_all

/-- Witness for C3: the spec scenario — WRAP active, snake
`[(0,10),(1,10)]` heading left wraps the head to `(29,10)` and never takes
the wall-death branch. -/
theorem wrap_powerup_step_witness :
    newHeadOf neonCfg (some .WRAP) ⟨[⟨0, 10⟩, ⟨1, 10⟩], ⟨-1, 0⟩, ⟨-1, 0⟩, ⟨15, 10, .NORMAL⟩⟩
      = ⟨29, 10⟩ ∧
    ∀ r : Rands,
      (loop neonCfg (some .WRAP) ⟨[⟨0, 10⟩, ⟨1, 10⟩], ⟨-1, 0⟩, ⟨-1, 0⟩, ⟨15, 10, .NORMAL⟩⟩ r).1
        ≠ .Died .wall := by
  have h := wrap_powerup_step neonCfg ⟨[⟨0, 10⟩, ⟨1, 10⟩], ⟨-1, 0⟩, ⟨-1, 0⟩, ⟨15, 10, .NORMAL⟩⟩
    (by decide) (by decide)
  exact ⟨h.1.trans (by decide), h.2⟩

/-- C4: with the GHOST power-up active a step never returns `Died` from the
self-collision branch, whatever the pre-move body (in particular when the
candidate head coincides with a body cell), while an out-of-bounds
candidate head still returns `Died` from the wall branch. -/
theorem ghost_powerup_step (cfg : Cfg) (st : EngineState) (r : Rands) :
    ((loop cfg (some .GHOST) st r).1 ≠ .Died .self) ∧
    (¬ inBounds cfg (newHeadOf cfg (some .GHOST) st) →
      (loop cfg (some .GHOST) st r).1 = .Died .wall) := by
  simp only [loop]
  split_ifs with h1 h2 h3 <;> simp_all

/-- Witness for C4: GHOST active. First, the snake
`[(1,10),(0,10),(0,11),(1,11)]` heading down steps onto its own body cell
`(1,11)` (in bounds) and does not die of self-collision; second, the snake
`[(0,10),(1,10)]` heading left off the grid still dies at the wall. -/
theorem ghost_powerup_step_witness :
    ((loop neonCfg (some .GHOST)
        ⟨[⟨1, 10⟩, ⟨0, 10⟩, ⟨0, 11⟩, ⟨1, 11⟩], ⟨0, 1⟩, ⟨0, 1⟩, ⟨15, 10, .NORMAL⟩⟩
        ⟨0, 0, 0⟩).1 ≠ .Died .self) ∧
    ((loop neonCfg (some .GHOST)
        ⟨[⟨0, 10⟩, ⟨1, 10⟩], ⟨-1, 0⟩, ⟨-1, 0⟩, ⟨15, 10, .NORMAL⟩⟩
        ⟨0, 0, 0⟩).1 = .Died .wall) :=
  ⟨(ghost_powerup_step neonCfg
      ⟨[⟨1, 10⟩, ⟨0, 10⟩, ⟨0, 11⟩, ⟨1, 11⟩], ⟨0, 1⟩, ⟨0, 1⟩, ⟨15, 10, .NORMAL⟩⟩ ⟨0, 0, 0⟩).1,
   (ghost_powerup_step neonCfg
      ⟨[⟨0, 10⟩, ⟨1, 10⟩], ⟨-1, 0⟩, ⟨-1, 0⟩, ⟨15, 10, .NORMAL⟩⟩ ⟨0, 0, 0⟩).2 (by decide)⟩

/-- C5: a direction command is ignored exactly when it shares a nonzero
axis with the currently active direction; a legal command overwrites the
pending buffer, so among all commands issued within one tick interval only
the last legal one is left pending, and each tick then commits the pending
direction as the active one. -/
theorem last_legal_direction_wins :
    (∀ (currentDir pending : Point) (cmds : List Point),
      processCommands currentDir pending cmds
        = (cmds.reverse.find? (legalDir currentDir)).getD pending) ∧
    (∀ (currentDir pending newDir : Point),
      handleDirectionChange currentDir pending newDir
        = if (newDir.x ≠ 0 ∧ currentDir.x ≠ 0) ∨ (newDir.y ≠ 0 ∧ currentDir.y ≠ 0)
          then pending else newDir) ∧
    (∀ (cfg : Cfg) (pu : Option PowerUpKind) (st : EngineState) (r : Rands),
      ((loop cfg pu st r).2).direction = st.nextDirection) := by
  refine ⟨processCommands_eq, ?_, fun cfg pu st r => (loop_commits_direction cfg pu st r).1⟩
  intro cur pend d
  unfold handleDirectionChange
  split_ifs <;> tauto

/-- C6: without the GHOST power-up, a snake of length at least 2 whose
candidate head lands exactly on the current tail cell dies by
self-collision — the scan covers the whole pre-move body, tail included. -/
theorem tail_cell_collision_dies (cfg : Cfg) (pu : Option PowerUpKind)
    (st : EngineState) (r : Rands)
    (hghost : pu ≠ some .GHOST)
    (hlen : 2 ≤ st.snake.length)
    (htail : st.snake.getLast? = some (newHeadOf cfg pu st))
    (hin : inBounds cfg (newHeadOf cfg pu st)) :
    (loop cfg pu st r).1 = .Died .self := by
  have hmem : newHeadOf cfg pu st ∈ st.snake := mem_of_getLast?_eq _ _ htail
  simp only [loop]
  split_ifs with h1 h2 h3 <;> simp_all

/-- Witness for C6: snake `[(1,0),(0,0)]` heading left — the candidate head
`(0,0)` is the tail cell, and the step dies by self-collision. -/
theorem tail_cell_collision_dies_witness :
    (loop neonCfg none ⟨[⟨1, 0⟩, ⟨0, 0⟩], ⟨-1, 0⟩, ⟨-1, 0⟩, ⟨15, 10, .NORMAL⟩⟩ ⟨0, 0, 0⟩).1
      = .Died .self :=
  tail_cell_collision_dies neonCfg none ⟨[⟨1, 0⟩, ⟨0, 0⟩], ⟨-1, 0⟩, ⟨-1, 0⟩, ⟨15, 10, .NORMAL⟩⟩
    ⟨0, 0, 0⟩ (by decide) (by decide) (by decide) (by decide)

/-- C7: at the PLAYING → GAME_OVER transition the high score is persisted
and the celebration fires exactly when the session score strictly exceeds
the stored high score, and the stored value becomes the maximum of the
two. -/
theorem high_score_updates_iff (score highScore : Nat) :
    ((gameOver score highScore).celebrated = true ↔ highScore < score) ∧
    ((gameOver score highScore).persisted = true ↔ highScore < score) ∧
    ((gameOver score highScore).highScore
      = if highScore < score then score else highScore) := by
  unfold gameOver
  split_ifs with h <;> simp [h]

/-- C8 counterexample: with valid draws `(0, 21/60, 21/40)` the spawner
places the food at `(10,10)`, the cell occupied by the reset-state snake —
no occupancy check exists, refuting the claim as stated. -/
theorem food_spawns_on_snake :
    validRands ⟨0, 21/60, 21/40⟩ ∧
    foodPos (spawnFood neonCfg ⟨0, 21/60, 21/40⟩) ∈ neonCfg.initSnake := by
  constructor
  · unfold validRands
    norm_num
  · have h : foodPos (spawnFood neonCfg ⟨0, 21/60, 21/40⟩) = ⟨10, 10⟩ := by
      simp only [spawnFood, foodPos, neonCfg, Point.mk.injEq]
      constructor <;> norm_num [Int.floor_eq_iff]
    rw [h]
    simp [neonCfg]

/-- C8 amended: every spawned food cell is in bounds, but no check excludes
snake-occupied cells — every in-bounds cell, occupied or not, is attainable
by some valid draws. -/
theorem spawn_reaches_any_cell (cfg : Cfg) (p : Point) (hp : inBounds cfg p) :
    ∃ r : Rands, validRands r ∧ foodPos (spawnFood cfg r) = p := by
  obtain ⟨px, py⟩ := p
  obtain ⟨hx0, hx1, hy0, hy1⟩ := hp
  have hW : (0:ℚ) < (cfg.width : ℚ) := by exact_mod_cast (by omega : (0:Int) < cfg.width)
  have hH : (0:ℚ) < (cfg.height : ℚ) := by exact_mod_cast (by omega : (0:Int) < cfg.height)
  refine ⟨⟨0, (px : ℚ) / (cfg.width : ℚ), (py : ℚ) / (cfg.height : ℚ)⟩, ⟨?_, ?_, ?_⟩, ?_⟩
  · norm_num
  · constructor
    · exact div_nonneg (by exact_mod_cast hx0) hW.le
    · rw [div_lt_one hW]
      exact_mod_cast hx1
  · constructor
    · exact div_nonneg (by exact_mod_cast hy0) hH.le
    · rw [div_lt_one hH]
      exact_mod_cast hy1
  · simp only [spawnFood, foodPos, Point.mk.injEq]
    constructor
    · rw [div_mul_cancel₀ _ hW.ne']
      exact Int.floor_intCast px
    · rw [div_mul_cancel₀ _ hH.ne']
      exact Int.floor_intCast py

/-- Witness for the amended C8: the occupied reset cell `(10,10)` itself is
attainable as a spawn position. -/
theorem spawn_reaches_any_cell_witness :
    ∃ r : Rands, validRands r ∧ foodPos (spawnFood neonCfg r) = ⟨10, 10⟩ :=
  spawn_reaches_any_cell neonCfg ⟨10, 10⟩ (by decide)

/-- C9: for valid draws, `spawnFood` places the food at
`(floor(x*width), floor(y*height))` — always an in-bounds cell — and the
kind is GHOST iff the kind draw exceeds 0.85, WRAP iff it lies in
(0.70, 0.85], and NORMAL iff it is at most 0.70. -/
theorem spawnFood_spec (cfg : Cfg) (r : Rands) (hv : validRands r)
    (hW : 1 ≤ cfg.width) (hH : 1 ≤ cfg.height) :
    (spawnFood cfg r).x = ⌊r.x * (cfg.width : ℚ)⌋ ∧
    (spawnFood cfg r).y = ⌊r.y * (cfg.height : ℚ)⌋ ∧
    inBounds cfg (foodPos (spawnFood cfg r)) ∧
    ((spawnFood cfg r).type = .GHOST ↔ 17/20 < r.kind) ∧
    ((spawnFood cfg r).type = .WRAP ↔ 7/10 < r.kind ∧ r.kind ≤ 17/20) ∧
    ((spawnFood cfg r).type = .NORMAL ↔ r.kind ≤ 7/10) := by
  obtain ⟨⟨hk0, hk1⟩, ⟨hx0, hx1⟩, ⟨hy0, hy1⟩⟩ := hv
  have hWQ : (0:ℚ) < (cfg.width : ℚ) := by exact_mod_cast (by omega : (0:Int) < cfg.width)
  have hHQ : (0:ℚ) < (cfg.height : ℚ) := by exact_mod_cast (by omega : (0:Int) < cfg.height)
  have hbx : 0 ≤ ⌊r.x * (cfg.width : ℚ)⌋ ∧ ⌊r.x * (cfg.width : ℚ)⌋ < cfg.width := by
    refine ⟨Int.floor_nonneg.mpr (mul_nonneg hx0 hWQ.le), Int.floor_lt.mpr ?_⟩
    have h := mul_lt_mul_of_pos_right hx1 hWQ
    rw [one_mul] at h
    exact_mod_cast h
  have hby : 0 ≤ ⌊r.y * (cfg.height : ℚ)⌋ ∧ ⌊r.y * (cfg.height : ℚ)⌋ < cfg.height := by
    refine ⟨Int.floor_nonneg.mpr (mul_nonneg hy0 hHQ.le), Int.floor_lt.mpr ?_⟩
    have h := mul_lt_mul_of_pos_right hy1 hHQ
    rw [one_mul] at h
    exact_mod_cast h
  have htype : (spawnFood cfg r).type
      = (if 17/20 < r.kind then FoodType.GHOST
         else if 7/10 < r.kind then FoodType.WRAP else FoodType.NORMAL) := rfl
  refine ⟨rfl, rfl, ⟨hbx.1, hbx.2, hby.1, hby.2⟩, ?_, ?_, ?_⟩ <;>
    rw [htype] <;> split_ifs with h1 h2 <;> simp_all <;> linarith

/-- Witness for C9: draws `(9/10, 1/2, 1/2)` yield a GHOST food on an
in-bounds cell. -/
theorem spawnFood_spec_witness :
    (spawnFood neonCfg ⟨9/10, 1/2, 1/2⟩).type = .GHOST ∧
    inBounds neonCfg (foodPos (spawnFood neonCfg ⟨9/10, 1/2, 1/2⟩)) := by
  have h := spawnFood_spec neonCfg ⟨9/10, 1/2, 1/2⟩ (by norm_num [validRands])
    (by decide) (by decide)
  exact ⟨h.2.2.2.1.mpr (by norm_num), h.2.2.1⟩

/-- C10: in every reachable engine state both direction refs hold one of
the four nonzero unit vectors; hence on a grid at least 2 cells wide and
tall, from an in-bounds head the candidate head always differs from the
current head cell, and a single-cell snake can never take the
self-collision death branch. -/
theorem single_cell_never_self_dies (cfg : Cfg) (st : EngineState)
    (hreach : Reachable cfg st) (hW : 2 ≤ cfg.width) (hH : 2 ≤ cfg.height) :
    (st.direction ∈ unitDirs ∧ st.nextDirection ∈ unitDirs) ∧
    (inBounds cfg st.snake.headI →
      (∀ pu : Option PowerUpKind, newHeadOf cfg pu st ≠ st.snake.headI) ∧
      (∀ (h : Point) (pu : Option PowerUpKind) (r : Rands), st.snake = [h] →
        (loop cfg pu st r).1 ≠ .Died .self)) := by
  have hdir := dir_invariant cfg st hreach
  refine ⟨hdir, fun hin => ⟨fun pu => ?_, fun h pu r hsn => ?_⟩⟩
  · show (newHeadOf cfg pu st) ≠ st.snake.headI
    unfold newHeadOf
    exact headCand_ne cfg pu st.snake.headI st.nextDirection hdir.2 hin hW hH
  · have hne : newHeadOf cfg pu st ≠ st.snake.headI := by
      unfold newHeadOf
      exact headCand_ne cfg pu st.snake.headI st.nextDirection hdir.2 hin hW hH
    rw [hsn] at hne
    simp only [List.headI] at hne
    simp only [loop]
    split_ifs with h1 h2 h3 <;> simp_all

/-- Witness for C10: the reset state of the 30×20 variant (single-cell
snake at `(10,10)`) — the candidate head differs from the head and no
power-up reading leads to a self-collision death on this tick. -/
theorem single_cell_never_self_dies_witness :
    newHeadOf neonCfg none (resetGame neonCfg ⟨0, 0, 0⟩)
      ≠ (resetGame neonCfg ⟨0, 0, 0⟩).snake.headI ∧
    (loop neonCfg none (resetGame neonCfg ⟨0, 0, 0⟩) ⟨0, 0, 0⟩).1 ≠ .Died .self := by
  have h := single_cell_never_self_dies neonCfg (resetGame neonCfg ⟨0, 0, 0⟩)
    (.init ⟨0, 0, 0⟩) (by decide) (by decide)
  have h2 := h.2 (by decide)
  exact ⟨h2.1 none, h2.2 ⟨10, 10⟩ none ⟨0, 0, 0⟩ (by decide)⟩
